import Mathlib

/-!
Verification of the sqlsift SQL analyzer.

The development embeds, as executable Lean definitions:
* the inline comment-directive scanner
  (crates/sqlsift-core/src/analyzer/comment_directives.rs), translated
  line-for-line from the Rust source, working on `List Char` lines;
* the SQL dialect value (crates/sqlsift-core/src/dialect/mod.rs);
* the LSP span conversion (crates/sqlsift-lsp/src/diagnostics.rs), with the
  `as u32` casts modelled as reduction modulo 2^32;
* the analyzer pipeline (catalog builder, name resolution, type
  compatibility), whose Rust source is not part of the crate sources
  available here; those definitions are modelled from the specification, as
  marked in their doc comments.
-/

/-- The single-quote character, written by code point. -/
def squote : Char := Char.ofNat 39

/-- A raw source line, as a list of characters. -/
abbrev Line := List Char

/-- Rule codes disabled by one directive: `none` means every rule is
disabled, `some cs` lists the codes. Mirrors
`Option<HashSet<String>>` in `comment_directives.rs` (a `HashSet` is
modelled as a list queried by membership). -/
abbrev Codes := Option (List Line)

/-- The map from 1-indexed line number to disabled codes,
mirroring `HashMap<usize, Option<HashSet<String>>>`. -/
abbrev DirMap := Nat → Option Codes

/-- Whitespace trim of a line, as Rust `str::trim`. -/
def trimChars (l : Line) : Line :=
  ((l.dropWhile Char.isWhitespace).reverse.dropWhile Char.isWhitespace).reverse

/-- The two-dash comment opener. -/
def dashes : Line := ['-', '-']

/-- The directive keyword `sqlsift:disable`. -/
def disableKeyword : Line := "sqlsift:disable".toList

/-- Scanner mode of `find_line_comment`: outside any quotes, inside a
single-quoted string, or inside a double-quoted identifier. -/
inductive ScanMode
  | normal
  | inStr
  | inIdent
deriving DecidableEq

/-- Character scan of `find_line_comment` in `comment_directives.rs`:
returns the text after the first `--` that is not inside a single-quoted
string (with doubled-quote escapes) or a double-quoted identifier. -/
def findCommentGo : ScanMode → Line → Option Line
  | _, [] => none
  | ScanMode.normal, '-' :: '-' :: rest => some rest
  | ScanMode.normal, c :: rest =>
      if c = squote then findCommentGo ScanMode.inStr rest
      else if c = '"' then findCommentGo ScanMode.inIdent rest
      else findCommentGo ScanMode.normal rest
  | ScanMode.inStr, c :: rest =>
      if c = squote then
        match rest with
        | [] => none
        | d :: rest2 =>
            if d = squote then findCommentGo ScanMode.inStr rest2
            else findCommentGo ScanMode.normal (d :: rest2)
      else findCommentGo ScanMode.inStr rest
  | ScanMode.inIdent, c :: rest =>
      if c = '"' then findCommentGo ScanMode.normal rest
      else findCommentGo ScanMode.inIdent rest

/-- `find_line_comment`, returning the comment body after `--`. -/
def findComment (l : Line) : Option Line := findCommentGo ScanMode.normal l

/-- Split a character list at commas and spaces, as
`rest.split([',', ' '])` in the Rust source. -/
def splitCommaSpaceGo (cur : Line) : Line → List Line
  | [] => [cur.reverse]
  | c :: rest =>
      if c = ',' ∨ c = ' ' then cur.reverse :: splitCommaSpaceGo [] rest
      else splitCommaSpaceGo (c :: cur) rest

/-- Split at commas and spaces. -/
def splitCommaSpace (l : Line) : List Line := splitCommaSpaceGo [] l

/-- Whether the first character of a line is whitespace. -/
def headIsWhitespace : Line → Bool
  | [] => false
  | c :: _ => c.isWhitespace

/-- `parse_directive_from_line`: find the line comment, look for
`sqlsift:disable`, and collect the (upper-cased) rule codes that follow.
`some none` means "disable all"; `none` means no directive. -/
def parseDirectiveFromLine (line : Line) : Option Codes :=
  match findComment line with
  | none => none
  | some comment =>
    let trimmed := trimChars comment
    if disableKeyword.isPrefixOf trimmed then
      let rest := trimmed.drop disableKeyword.length
      if rest = [] then some none
      else if ¬ headIsWhitespace rest then none
      else
        let codes := ((splitCommaSpace rest).map trimChars).filter
            (fun s => ¬ s = []) |>.map (fun s => s.map Char.toUpper)
        if codes = [] then some none else some (some codes)
    else none

/-- `merge_codes`: `none` (disable all) absorbs, otherwise code lists
are unioned (list append models `HashSet::extend`). -/
def mergeCodes : Codes → Codes → Codes
  | _, none => none
  | none, some _ => none
  | some a, some b => some (a ++ b)

/-- `merge_into_map`: merge new codes into the entry for `l`. -/
def mergeIntoMap (m : DirMap) (l : Nat) (c : Codes) : DirMap :=
  fun k =>
    if k = l then
      some (match m l with
            | some e => mergeCodes e c
            | none => c)
    else m k

/-- One line of the `InlineDirectives::parse` loop: classify the line as a
standalone directive (accumulate into the pending codes), an inline
directive (merge into the map at this line), a pending-consuming SQL line,
or anything else. -/
def stepDir (st : DirMap × Option Codes) (ln : Nat) (line : Line) :
    DirMap × Option Codes :=
  match parseDirectiveFromLine line with
  | some codes =>
      if dashes.isPrefixOf (trimChars line) then
        (st.1, some (match st.2 with
                     | some ex => mergeCodes ex codes
                     | none => codes))
      else
        (mergeIntoMap st.1 ln codes, st.2)
  | none =>
      match st.2 with
      | some p =>
          if trimChars line ≠ [] ∧ ¬ dashes.isPrefixOf (trimChars line) then
            (mergeIntoMap st.1 ln p, none)
          else st
      | none => st

/-- The `InlineDirectives::parse` loop over the numbered lines. -/
def goDirectives : List Line → Nat → (DirMap × Option Codes) →
    DirMap × Option Codes
  | [], _, st => st
  | l :: rest, ln, st => goDirectives rest (ln + 1) (stepDir st ln l)

/-- Strip one trailing carriage return from a reversed line accumulator. -/
def stripCr : Line → Line
  | '\r' :: t => t
  | l => l

/-- Split characters at newlines, stripping a carriage return before each
newline, as Rust `str::lines`. The accumulator holds the current line
reversed. -/
def splitNlGo (cur : Line) : List Char → List Line
  | [] => [cur.reverse]
  | c :: rest =>
      if c = '\n' then (stripCr cur).reverse :: splitNlGo [] rest
      else splitNlGo (c :: cur) rest

/-- Rust `str::lines`: the empty string has no lines, and a trailing
newline does not open a final empty line. -/
def rustLines (s : String) : List Line :=
  let cs := s.toList
  if cs = [] then []
  else
    let parts := splitNlGo [] cs
    if cs.getLast? = some '\n' then parts.dropLast else parts

/-- The parsed inline directives, mirroring `struct InlineDirectives`. -/
structure InlineDirectives where
  disabled_lines : DirMap

/-- `InlineDirectives::parse` over raw SQL text. -/
def InlineDirectives.parse (sql : String) : InlineDirectives :=
  ⟨(goDirectives (rustLines sql) 1 (fun _ => none, none)).1⟩

/-- `InlineDirectives::is_suppressed`. -/
def InlineDirectives.is_suppressed (d : InlineDirectives) (code : Line)
    (line : Nat) : Bool :=
  match d.disabled_lines line with
  | some none => true
  | some (some cs) => cs.contains code
  | none => false

example : (InlineDirectives.parse
    "SELECT bad_col FROM users -- sqlsift:disable E0002").is_suppressed
    "E0002".toList 1 = true := by decide

example : (InlineDirectives.parse
    "SELECT bad_col FROM users -- sqlsift:disable E0002").is_suppressed
    "E0001".toList 1 = false := by decide

example : (InlineDirectives.parse
    "-- sqlsift:disable E0002\nSELECT bad_col FROM users").is_suppressed
    "E0002".toList 2 = true := by decide

example : (InlineDirectives.parse
    "-- sqlsift:disable E0001\n\nSELECT a FROM t").is_suppressed
    "E0001".toList 3 = true := by decide

example : (InlineDirectives.parse
    "SELECT a FROM t -- sqlsift:disabled E0002").is_suppressed
    "E0002".toList 1 = false := by decide

example : (InlineDirectives.parse
    "SELECT a FROM t -- sqlsift:disable e0002").is_suppressed
    "E0002".toList 1 = true := by decide

/-- Diagnostic kinds of the stable wire contract (spec section 6). -/
inductive DiagnosticKind
  | TableNotFound
  | ColumnNotFound
  | TypeMismatch
  | AmbiguousColumn
  | ColumnCountMismatch
  | ParseError
deriving DecidableEq

/-- Stable diagnostic code of each kind. -/
def DiagnosticKind.code : DiagnosticKind → String
  | .TableNotFound => "E0001"
  | .ColumnNotFound => "E0002"
  | .TypeMismatch => "E0003"
  | .AmbiguousColumn => "E0004"
  | .ColumnCountMismatch => "E0005"
  | .ParseError => "E0006"

/-- Diagnostic severities (sqlsift_core::Severity). -/
inductive Severity
  | error
  | warning
  | info
deriving DecidableEq

/-- 1-indexed source span carried by diagnostics. -/
structure Span where
  line : Nat
  column : Nat
  length : Nat
deriving DecidableEq

/-- A diagnostic: kind, severity, message, optional span and help
(spec section 3, sqlsift_core::Diagnostic). -/
structure Diagnostic where
  kind : DiagnosticKind
  severity : Severity
  message : String
  span : Option Span
  help : Option String
deriving DecidableEq

/-- The supported SQL dialects (crates/sqlsift-core/src/dialect/mod.rs). -/
inductive SqlDialect
  | PostgreSQL
  | MySQL
  | SQLite
deriving DecidableEq

/-- `SqlDialect::default_schema`. -/
def SqlDialect.default_schema : SqlDialect → String
  | .PostgreSQL => "public"
  | .MySQL => ""
  | .SQLite => ""

/-- 0-indexed LSP position (`tower_lsp::lsp_types::Position`); the `line`
and `character` fields are `u32` values represented as naturals below
2^32. -/
structure Position where
  line : Nat
  character : Nat
deriving DecidableEq

/-- LSP range; `stop` stands for the source field `end`, which is a
reserved word. -/
structure Range where
  start : Position
  stop : Position
deriving DecidableEq

/-- `Range::default()`: the all-zero range. -/
def Range.default : Range := ⟨⟨0, 0⟩, ⟨0, 0⟩⟩

/-- 2^32, the modulus of the `as u32` casts. -/
def U32MOD : Nat := 4294967296

/-- `span_to_range` in crates/sqlsift-lsp/src/diagnostics.rs.
`(s.line - 1) as u32` and `s.length as u32` truncate, modelled as `% 2^32`;
`s.column.saturating_sub(1)` is natural subtraction; the `u32` addition for
`end.character` wraps modulo 2^32. -/
def span_to_range : Option Span → Range
  | some s =>
      if s.line > 0 then
        ⟨⟨(s.line - 1) % U32MOD, (s.column - 1) % U32MOD⟩,
         ⟨(s.line - 1) % U32MOD,
          ((s.column - 1) % U32MOD + s.length % U32MOD) % U32MOD⟩⟩
      else Range.default
  | none => Range.default

example : span_to_range (some ⟨1, 1, 5⟩) = ⟨⟨0, 0⟩, ⟨0, 5⟩⟩ := by decide

example : span_to_range (some ⟨0, 3, 10⟩) = Range.default := by decide

example : span_to_range none = Range.default := by decide

/-- Modelled from the spec: the semantic type lattice of section 4.4. The
Catalog Builder and Type Checker sources are not among the crate sources
here; the member set follows the spec's list. -/
inductive SqlType
  | SmallInt
  | Integer
  | BigInt
  | Decimal
  | Real
  | Double
  | TinyInt
  | MediumInt
  | CharT
  | VarcharT
  | Text
  | Date
  | Time
  | Timestamp
  | TimestampTz
  | Interval
  | Boolean
  | Uuid
  | Bytea
  | Json
  | Jsonb
  | EnumT (name : String)
  | Custom (name : String)
  | Unknown
deriving DecidableEq

/-- Modelled from the spec: the numeric family of section 4.4. -/
def numericFamily : SqlType → Bool
  | .SmallInt | .Integer | .BigInt | .Decimal | .Real | .Double
  | .TinyInt | .MediumInt => true
  | _ => false

/-- Modelled from the spec: the text family of section 4.4. -/
def textFamily : SqlType → Bool
  | .CharT | .VarcharT | .Text => true
  | _ => false

/-- Modelled from the spec: the timestamp subfamily (`Timestamp` and
`TimestampTz` are equivalent subfamily members). -/
def timestampFamily : SqlType → Bool
  | .Timestamp | .TimestampTz => true
  | _ => false

/-- Is this character a hexadecimal digit? -/
def isHexChar (c : Char) : Bool :=
  c.isDigit ∨ ('a' ≤ c ∧ c ≤ 'f') ∨ ('A' ≤ c ∧ c ≤ 'F')

/-- Split a character list at hyphens. -/
def splitHyphenGo (cur : Line) : Line → List Line
  | [] => [cur.reverse]
  | c :: rest =>
      if c = '-' then cur.reverse :: splitHyphenGo [] rest
      else splitHyphenGo (c :: cur) rest

/-- Modelled from the spec: a string parses as a UUID exactly when it has
the canonical 8-4-4-4-12 hexadecimal form (section 4.4, literal typing). -/
def isCanonicalUuid (cs : Line) : Bool :=
  match splitHyphenGo [] cs with
  | [a, b, c, d, e] =>
      a.length = 8 ∧ b.length = 4 ∧ c.length = 4 ∧ d.length = 4 ∧
      e.length = 12 ∧ (a ++ b ++ c ++ d ++ e).all isHexChar
  | _ => false

example : isCanonicalUuid "123e4567-e89b-12d3-a456-426614174000".toList
    = true := by decide

example : isCanonicalUuid "123e4567".toList = false := by decide

/-- Modelled from the spec: SQL literals (section 4.4; `NULL` is the
special token compatible with every type). -/
inductive Literal
  | intLit (n : Int)
  | floatLit (n : Int)
  | boolLit (b : Bool)
  | nullLit
  | strLit (s : String)
deriving DecidableEq

/-- Modelled from the spec: literal typing for non-null, non-string
literals (integer literals are `Integer`, floating literals `Double`,
booleans `Boolean`). -/
def litType : Literal → SqlType
  | .intLit _ => .Integer
  | .floatLit _ => .Double
  | .boolLit _ => .Boolean
  | _ => .Unknown

/-- Modelled from the spec: the compatibility relation of section 4.4 on
two resolved types — `Unknown` is compatible with everything, members of
one family are compatible, otherwise the types must be equal. -/
def compatibleTy (a b : SqlType) : Bool :=
  a = .Unknown ∨ b = .Unknown ∨
  (numericFamily a ∧ numericFamily b) ∨
  (textFamily a ∧ textFamily b) ∨
  (timestampFamily a ∧ timestampFamily b) ∨
  a = b

/-- Modelled from the spec: context promotion of a string literal compared
or assigned to a column of type `colTy` (section 4.4): against `Uuid` the
literal counts as a UUID exactly when it parses in canonical form; enum
columns accept textual literals; otherwise the literal remains textual and
is compatible with the text family (and with an unresolved column type). -/
def stringCompatibleWith (colTy : SqlType) (s : String) : Bool :=
  match colTy with
  | .Uuid => isCanonicalUuid s.toList
  | .EnumT _ => true
  | .Unknown => true
  | t => textFamily t

/-- Wrap an identifier in single quotes for a diagnostic message. -/
def quoted (s : String) : String :=
  String.mk (squote :: s.toList ++ [squote])

/-- Build an error diagnostic at the given 1-indexed line. -/
def mkDiag (k : DiagnosticKind) (msg : String) (ln : Nat) : Diagnostic :=
  ⟨k, Severity.error, msg, some ⟨ln, 1, 0⟩, none⟩

/-- Modelled from the spec: the type-compatibility check of one comparison
or assignment between a column of type `colTy` and a literal
(section 4.4): `NULL` is compatible with everything; a string literal goes
through context promotion; other literals are checked by family. -/
def compatCheck (colTy : SqlType) (lit : Literal) (ln : Nat) :
    List Diagnostic :=
  match lit with
  | .nullLit => []
  | .strLit s =>
      if stringCompatibleWith colTy s then []
      else [mkDiag .TypeMismatch "type mismatch: incompatible literal" ln]
  | l =>
      if compatibleTy colTy (litType l) then []
      else [mkDiag .TypeMismatch "type mismatch: incompatible literal" ln]

/-- Case-insensitive identifier equality (spec section 3: qualified-name
and column-name equality is case-insensitive). -/
def eqCI (a b : String) : Bool :=
  a.toList.map Char.toLower = b.toList.map Char.toLower

/-- Modelled from the spec: a table column (the attributes the claims
exercise: name and declared type). -/
structure Column where
  name : String
  dataType : SqlType
deriving DecidableEq

/-- Modelled from the spec: a catalog table — a name and its ordered
columns. -/
structure Table where
  name : String
  columns : List Column
deriving DecidableEq

/-- Modelled from the spec: the immutable schema catalog consumed by the
resolver. -/
structure Catalog where
  tables : List Table
deriving DecidableEq

/-- Case-insensitive table lookup in the catalog. -/
def lookupTable (cat : Catalog) (n : String) : Option Table :=
  cat.tables.find? (fun t => eqCI t.name n)

/-- Case-insensitive column lookup in a column list. -/
def lookupColumn (cols : List Column) (c : String) : Option Column :=
  cols.find? (fun col => eqCI col.name c)

/-- Modelled from the spec: DDL statement trees consumed by the Catalog
Builder (section 4.1; the third-party SQL parser that produces the trees
is an external collaborator). -/
inductive DdlStmt
  | createTable (t : Table)
  | alterAddColumn (table : String) (c : Column)
  | alterDropColumn (table : String) (col : String)
  | alterRenameColumn (table : String) (a : String) (b : String)
  | alterRenameTable (t : String) (u : String)
deriving DecidableEq

/-- The target table of an `ALTER TABLE` statement, if the statement is an
`ALTER`. -/
def alterTarget : DdlStmt → Option String
  | .createTable _ => none
  | .alterAddColumn t _ => some t
  | .alterDropColumn t _ => some t
  | .alterRenameColumn t _ _ => some t
  | .alterRenameTable t _ => some t

/-- A schema-side warning diagnostic for a missing `ALTER` target. -/
def missingAlterWarning (t : String) : Diagnostic :=
  ⟨DiagnosticKind.TableNotFound, Severity.warning,
   "table " ++ quoted t ++ " not found", none, none⟩

/-- Replace the table named `n` (case-insensitively) using `f`. -/
def mapTable (cat : Catalog) (n : String) (f : Table → Table) : Catalog :=
  ⟨cat.tables.map (fun t => if eqCI t.name n then f t else t)⟩

/-- Modelled from the spec: the catalog effect of one DDL statement
(section 4.1's table of operations). A missing `ALTER` target leaves the
catalog unchanged; a duplicate `CREATE TABLE` keeps the first
definition. -/
def ddlCatalogEffect (cat : Catalog) : DdlStmt → Catalog
  | .createTable t =>
      match lookupTable cat t.name with
      | some _ => cat
      | none => ⟨cat.tables ++ [t]⟩
  | .alterAddColumn t c =>
      match lookupTable cat t with
      | some _ => mapTable cat t (fun tb => ⟨tb.name, tb.columns ++ [c]⟩)
      | none => cat
  | .alterDropColumn t c =>
      match lookupTable cat t with
      | some _ =>
          mapTable cat t
            (fun tb => ⟨tb.name, tb.columns.filter (fun col => ¬ eqCI col.name c)⟩)
      | none => cat
  | .alterRenameColumn t a b =>
      match lookupTable cat t with
      | some _ =>
          mapTable cat t
            (fun tb => ⟨tb.name,
              tb.columns.map (fun col =>
                if eqCI col.name a then ⟨b, col.dataType⟩ else col)⟩)
      | none => cat
  | .alterRenameTable t u =>
      match lookupTable cat t with
      | some _ => mapTable cat t (fun tb => ⟨u, tb.columns⟩)
      | none => cat

/-- Modelled from the spec: the schema diagnostics of one DDL statement —
a warning for a duplicate `CREATE TABLE` and for every `ALTER` whose
target table is missing; such statements never abort the batch
(section 4.1). -/
def ddlDiags (cat : Catalog) : DdlStmt → List Diagnostic
  | .createTable t =>
      match lookupTable cat t.name with
      | some _ => [⟨DiagnosticKind.TableNotFound, Severity.warning,
                    "duplicate table " ++ quoted t.name, none, none⟩]
      | none => []
  | s =>
      match alterTarget s with
      | some t =>
          match lookupTable cat t with
          | some _ => []
          | none => [missingAlterWarning t]
      | none => []

/-- One step of the Catalog Builder fold. -/
def ddlStep (st : Catalog × List Diagnostic) (s : DdlStmt) :
    Catalog × List Diagnostic :=
  (ddlCatalogEffect st.1 s, st.2 ++ ddlDiags st.1 s)

/-- Modelled from the spec: `SchemaBuilder` — consume a DDL batch, produce
the catalog and the schema diagnostics; the fold is total, so every batch
yields a catalog (`build()` never aborts). -/
def buildCatalog (stmts : List DdlStmt) : Catalog × List Diagnostic :=
  stmts.foldl ddlStep (⟨[]⟩, [])

/-- Modelled from the spec: a scope-frame binding — a named source of
columns (section 3, Scope Frame). -/
structure Binding where
  aliasName : String
  columns : List Column
deriving DecidableEq

/-- A scope frame: the bindings of one query block. -/
abbrev Frame := List Binding

/-- Does the binding expose a column named `c` (case-insensitive)? -/
def hasColB (b : Binding) (c : String) : Bool :=
  (lookupColumn b.columns c).isSome

/-- The bindings of a frame that expose column `c`. -/
def frameMatches (f : Frame) (c : String) : List Binding :=
  f.filter (fun b => hasColB b c)

/-- The declared type of column `c` in binding `b` (`Unknown` when
absent). -/
def colTypeIn (b : Binding) (c : String) : SqlType :=
  match lookupColumn b.columns c with
  | some col => col.dataType
  | none => .Unknown

/-- Outcome of resolving one column reference. -/
inductive Resolved
  | ok (t : SqlType)
  | ambiguous
  | colNotFound
  | tblNotFound (t : String)
deriving DecidableEq

/-- Modelled from the spec: unqualified column resolution (section 4.3) —
scan the bindings of the current frame; zero matches walks outer frames;
more than one match in the nearest frame that has any match is
ambiguous. -/
def resolveUnqualified : List Frame → String → Resolved
  | [], _ => .colNotFound
  | f :: outer, c =>
      match frameMatches f c with
      | [] => resolveUnqualified outer c
      | [b] => .ok (colTypeIn b c)
      | _ => .ambiguous

/-- Find the binding whose alias is `a` in the nearest frame that has
one. -/
def findBinding : List Frame → String → Option Binding
  | [], _ => none
  | f :: outer, a =>
      match f.find? (fun b => eqCI b.aliasName a) with
      | some b => some b
      | none => findBinding outer a

/-- Modelled from the spec: qualified column resolution `a.c`
(section 4.3) — find binding `a` in the current frame, else walk outer
frames; a missing binding is `TableNotFound` for `a`, a missing column is
`ColumnNotFound`. -/
def resolveQualified (stack : List Frame) (a c : String) : Resolved :=
  match findBinding stack a with
  | none => .tblNotFound a
  | some b =>
      match lookupColumn b.columns c with
      | some col => .ok col.dataType
      | none => .colNotFound

/-- A column reference, qualified or unqualified. -/
inductive ColRef
  | qual (t : String) (c : String)
  | unqual (c : String)
deriving DecidableEq

/-- The identifier a reference names (the column part). -/
def ColRef.colName : ColRef → String
  | .qual _ c => c
  | .unqual c => c

/-- Resolve a reference on the scope stack. -/
def resolveRef (stack : List Frame) : ColRef → Resolved
  | .qual t c => resolveQualified stack t c
  | .unqual c => resolveUnqualified stack c

/-- Diagnostics of one reference resolution (spec section 4.3: messages
name the offending identifier in single quotes). -/
def refDiags (ln : Nat) (stack : List Frame) (r : ColRef) :
    List Diagnostic :=
  match resolveRef stack r with
  | .ok _ => []
  | .ambiguous =>
      [mkDiag .AmbiguousColumn
        ("column " ++ quoted r.colName ++ " is ambiguous") ln]
  | .colNotFound =>
      [mkDiag .ColumnNotFound
        ("column " ++ quoted r.colName ++ " not found") ln]
  | .tblNotFound t =>
      [mkDiag .TableNotFound ("table " ++ quoted t ++ " not found") ln]

/-- The resolved type of a reference, `Unknown` when resolution failed. -/
def refType (stack : List Frame) (r : ColRef) : SqlType :=
  match resolveRef stack r with
  | .ok t => t
  | _ => .Unknown

/-- A `FROM` item: a table name and the alias it is bound under. -/
structure FromItem where
  table : String
  aliasName : String
deriving DecidableEq

/-- Resolve one `FROM` item against the catalog: a binding on success, a
`TableNotFound` diagnostic otherwise (spec section 4.3, `FROM`-item
resolution). -/
def resolveFromItem (cat : Catalog) (ln : Nat) (it : FromItem) :
    List Diagnostic × Frame :=
  match lookupTable cat it.table with
  | some t => ([], [⟨it.aliasName, t.columns⟩])
  | none =>
      ([mkDiag .TableNotFound ("table " ++ quoted it.table ++ " not found") ln],
       [])

/-- Build the frame of a `FROM` list, collecting diagnostics for missing
tables. -/
def buildFrame (cat : Catalog) (ln : Nat) : List FromItem →
    List Diagnostic × Frame
  | [] => ([], [])
  | it :: rest =>
      let r := resolveFromItem cat ln it
      let acc := buildFrame cat ln rest
      (r.1 ++ acc.1, r.2 ++ acc.2)

/-- Modelled from the spec: a one-level subquery in expression position —
its own `FROM` list, projection, and simple `column = literal`
comparisons in its `WHERE`. -/
structure SubQ where
  fromItems : List FromItem
  proj : List ColRef
  whereCmp : List (ColRef × Literal)
deriving DecidableEq

/-- Projection item: `*` or a column reference. -/
inductive ProjItem
  | star
  | col (r : ColRef)
deriving DecidableEq

/-- Diagnostics of a `column = literal` comparison: resolution diagnostics
of the column, then the compatibility check of section 4.4 on success. -/
def cmpLitDiags (ln : Nat) (stack : List Frame) (r : ColRef)
    (lit : Literal) : List Diagnostic :=
  match resolveRef stack r with
  | .ok t => compatCheck t lit ln
  | _ => refDiags ln stack r

/-- Modelled from the spec: analysis of a subquery (section 4.3). A fresh
frame is pushed for the subquery's `FROM` bindings; the enclosing frames
become outer frames, consulted only on a miss. The subquery's bindings are
never merged into the enclosing frame. -/
def analyzeSubQ (cat : Catalog) (ln : Nat) (outer : List Frame)
    (q : SubQ) : List Diagnostic :=
  let fr := buildFrame cat ln q.fromItems
  let stack := fr.2 :: outer
  fr.1 ++ q.proj.flatMap (refDiags ln stack) ++
    q.whereCmp.flatMap (fun p => cmpLitDiags ln stack p.1 p.2)

/-- Conditions appearing in `WHERE`, `ON`, and similar clauses. -/
inductive Cond
  | ref (r : ColRef)
  | cmpLit (r : ColRef) (lit : Literal)
  | inSub (r : ColRef) (q : SubQ)
  | existsSub (q : SubQ)
deriving DecidableEq

/-- Modelled from the spec: analysis of one condition under a scope stack.
A subquery pushes its own frame inside `analyzeSubQ`; the reference on the
left of `IN` is resolved against the enclosing stack only. -/
def condDiags (cat : Catalog) (ln : Nat) (stack : List Frame) :
    Cond → List Diagnostic
  | .ref r => refDiags ln stack r
  | .cmpLit r lit => cmpLitDiags ln stack r lit
  | .inSub r q => refDiags ln stack r ++ analyzeSubQ cat ln stack q
  | .existsSub q => analyzeSubQ cat ln stack q

/-- Projection diagnostics: `*` expands against the full binding set
without error; a reference is resolved on the stack. -/
def projDiags (ln : Nat) (stack : List Frame) : ProjItem → List Diagnostic
  | .star => []
  | .col r => refDiags ln stack r

/-- Modelled from the spec: DML/DQL statement trees the claims exercise
(`SELECT` with joins and conditions, `UPDATE t SET … WHERE …`). -/
inductive Stmt
  | select (fromItems : List FromItem) (proj : List ProjItem)
      (conds : List Cond)
  | update (table : String) (sets : List (String × Literal))
      (conds : List Cond)
deriving DecidableEq

/-- Modelled from the spec: per-statement analysis (section 4.3). A
`SELECT` pushes one frame for its `FROM` list; join conditions, `WHERE`
and the projection resolve in that frame. An `UPDATE` target is a single
binding; each `SET` entry is resolved and type-checked; `WHERE` is
analyzed in a frame containing only the target. -/
def analyzeStmt (cat : Catalog) (ln : Nat) : Stmt → List Diagnostic
  | .select items proj conds =>
      let fr := buildFrame cat ln items
      let stack := [fr.2]
      fr.1 ++ proj.flatMap (projDiags ln stack) ++
        conds.flatMap (condDiags cat ln stack)
  | .update t sets conds =>
      match lookupTable cat t with
      | none => [mkDiag .TableNotFound ("table " ++ quoted t ++ " not found") ln]
      | some tb =>
          let stack : List Frame := [[⟨t, tb.columns⟩]]
          sets.flatMap (fun p => cmpLitDiags ln stack (.unqual p.1) p.2) ++
            conds.flatMap (condDiags cat ln stack)

/-- Modelled from the spec: the input of one `analyze` call — the raw text
(scanned for inline directives) and the parsed statement trees, each
tagged with its 1-indexed starting line (the SQL parser itself is an
external collaborator, section 1). -/
structure SqlInput where
  text : String
  stmts : List (Nat × Stmt)
deriving Inhabited

/-- The line a diagnostic is attached to (0 when it has no span). -/
def diagLine (d : Diagnostic) : Nat :=
  match d.span with
  | some sp => sp.line
  | none => 0

/-- Modelled from the spec: `analyze(catalog, dialect, sql)` — analyze
every statement, then drop each diagnostic whose `(code, line)` pair is
suppressed by an inline directive (sections 4.5 and 6). -/
def analyzeSql (cat : Catalog) (_d : SqlDialect) (inp : SqlInput) :
    List Diagnostic :=
  let dirs := InlineDirectives.parse inp.text
  (inp.stmts.flatMap (fun p => analyzeStmt cat p.1 p.2)).filter
    (fun dg => ¬ dirs.is_suppressed (dg.kind.code.toList) (diagLine dg))

/-- Modelled from the spec: the `Analyzer` value — a catalog reference, a
dialect, and the diagnostics buffer of the last run (section 5: analysis
is single-threaded and synchronous and the catalog is read-only, so each
call computes from the catalog, the dialect and the input alone and the
buffer is rebuilt from scratch). -/
structure Analyzer where
  catalog : Catalog
  dialect : SqlDialect
  diagnostics : List Diagnostic

/-- One `analyze` call: returns the diagnostics and the analyzer as left
behind by the call. -/
def Analyzer.analyze (a : Analyzer) (inp : SqlInput) :
    List Diagnostic × Analyzer :=
  let ds := analyzeSql a.catalog a.dialect inp
  (ds, { a with diagnostics := ds })

/-- The outputs of `n` successive `analyze` calls on the same input,
threading the analyzer state. -/
def analyzeRepeat (a : Analyzer) (inp : SqlInput) : Nat → List (List Diagnostic)
  | 0 => []
  | n + 1 =>
      let r := a.analyze inp
      r.1 :: analyzeRepeat r.2 inp n

/-- The two-table catalog of the analyzer test fixture: `users(id, name,
email)` and `orders(id, user_id, total)`. -/
def setupCatalog : Catalog :=
  ⟨[⟨"users", [⟨"id", .Integer⟩, ⟨"name", .VarcharT⟩, ⟨"email", .Text⟩]⟩,
    ⟨"orders", [⟨"id", .Integer⟩, ⟨"user_id", .Integer⟩, ⟨"total", .Decimal⟩]⟩]⟩

/-- Catalog built from `CREATE TABLE users(id INT);`. -/
def c2Catalog : Catalog := ⟨[⟨"users", [⟨"id", .Integer⟩]⟩]⟩

/-- Catalog built from `CREATE TABLE users(id UUID PRIMARY KEY);`. -/
def uuidCatalog : Catalog := ⟨[⟨"users", [⟨"id", .Uuid⟩]⟩]⟩

/-- `SELECT id FROM users JOIN orders ON users.id = orders.user_id`. -/
def ambiguousSelect : Stmt :=
  .select [⟨"users", "users"⟩, ⟨"orders", "orders"⟩]
    [.col (.unqual "id")]
    [.ref (.qual "users" "id"), .ref (.qual "orders" "user_id")]

example :
    analyzeStmt setupCatalog 1 ambiguousSelect =
      [mkDiag .AmbiguousColumn ("column " ++ quoted "id" ++ " is ambiguous") 1] := by
  decide

/-- `SELECT * FROM users WHERE id = lit` against the UUID catalog. -/
def uuidSelect (lit : Literal) : Stmt :=
  .select [⟨"users", "users"⟩] [.star] [.cmpLit (.unqual "id") lit]

example :
    analyzeStmt uuidCatalog 1
      (uuidSelect (.strLit "123e4567-e89b-12d3-a456-426614174000")) = [] := by
  decide

example :
    (analyzeStmt uuidCatalog 1 (uuidSelect (.intLit 42))).map Diagnostic.kind
      = [.TypeMismatch] := by
  decide

/-- The raw three-line input of the inline-suppression scenario. -/
def c2Text : String :=
  "-- sqlsift:disable E0002\nSELECT bad FROM users;\nSELECT worse FROM users"

/-- The statement trees of the three-line input: `SELECT bad FROM users`
starting on line 2 and `SELECT worse FROM users` starting on line 3. -/
def c2Input : SqlInput :=
  ⟨c2Text,
   [(2, .select [⟨"users", "users"⟩] [.col (.unqual "bad")] []),
    (3, .select [⟨"users", "users"⟩] [.col (.unqual "worse")] [])]⟩

example :
    analyzeSql c2Catalog .PostgreSQL c2Input =
      [mkDiag .ColumnNotFound ("column " ++ quoted "worse" ++ " not found") 3] := by
  decide

/-- Table `purchases(id UUID PRIMARY KEY, latest_purchase_ref_id UUID)`. -/
def purchasesTable : Table :=
  ⟨"purchases", [⟨"id", .Uuid⟩, ⟨"latest_purchase_ref_id", .Uuid⟩]⟩

/-- The catalog of the scope-isolation scenario, with the columns of
`latest_purchase_refs` left as a parameter. -/
def c1Catalog (cols : List Column) : Catalog :=
  ⟨[purchasesTable, ⟨"latest_purchase_refs", cols⟩]⟩

/-- The concrete columns of `latest_purchase_refs` in the test fixture:
`id UUID PRIMARY KEY, latest_purchase_id UUID` — note both tables expose a
column named `id`. -/
def refsCols : List Column := [⟨"id", .Uuid⟩, ⟨"latest_purchase_id", .Uuid⟩]

/-- `UPDATE purchases SET latest_purchase_ref_id = NULL WHERE
latest_purchase_ref_id IN (SELECT id FROM latest_purchase_refs WHERE
latest_purchase_id = '00000000-0000-0000-0000-000000000000')`. -/
def c1Update : Stmt :=
  .update "purchases" [("latest_purchase_ref_id", .nullLit)]
    [.inSub (.unqual "latest_purchase_ref_id")
      ⟨[⟨"latest_purchase_refs", "latest_purchase_refs"⟩],
       [.unqual "id"],
       [(.unqual "latest_purchase_id",
         .strLit "00000000-0000-0000-0000-000000000000")]⟩]

example : analyzeStmt (c1Catalog refsCols) 1 c1Update = [] := by decide

/-- `SELECT u.id FROM users u WHERE EXISTS (SELECT id FROM orders WHERE
user_id = 1)` — the subquery's table shares the column name `id` with the
outer table. -/
def c1Exists : Stmt :=
  .select [⟨"users", "u"⟩] [.col (.qual "u" "id")]
    [.existsSub ⟨[⟨"orders", "orders"⟩], [.unqual "id"],
                 [(.unqual "user_id", .intLit 1)]⟩]

example : analyzeStmt setupCatalog 1 c1Exists = [] := by decide

/-- The `UPDATE` of the scope-isolation scenario followed by a reference
to the subquery's binding from the outer scope: the binding must not be
visible there. -/
def c1UpdateOuterRef : Stmt :=
  .update "purchases" [("latest_purchase_ref_id", .nullLit)]
    [.inSub (.unqual "latest_purchase_ref_id")
      ⟨[⟨"latest_purchase_refs", "latest_purchase_refs"⟩],
       [.unqual "id"],
       [(.unqual "latest_purchase_id",
         .strLit "00000000-0000-0000-0000-000000000000")]⟩,
     .ref (.qual "latest_purchase_refs" "id")]

example :
    analyzeStmt (c1Catalog refsCols) 1 c1UpdateOuterRef =
      [mkDiag .TableNotFound
        ("table " ++ quoted "latest_purchase_refs" ++ " not found") 1] := by
  decide

/-- The directive value `c` suppresses code `x`: every rule is disabled or
`x` is listed. -/
def SuppressesCode (c : Codes) (x : Line) : Prop :=
  c = none ∨ ∃ cs, c = some cs ∧ x ∈ cs

/-- The directive map suppresses code `x` on line `l`. -/
def MapSuppressed (m : DirMap) (x : Line) (l : Nat) : Prop :=
  ∃ e, m l = some e ∧ SuppressesCode e x

theorem is_suppressed_iff (m : DirMap) (x : Line) (l : Nat) :
    (InlineDirectives.mk m).is_suppressed x l = true ↔ MapSuppressed m x l := by
  cases hm : m l with
  | none =>
      simp [InlineDirectives.is_suppressed, hm, MapSuppressed]
  | some e =>
      cases e with
      | none =>
          simp [InlineDirectives.is_suppressed, hm, MapSuppressed,
                SuppressesCode]
      | some cs =>
          simp [InlineDirectives.is_suppressed, hm, MapSuppressed,
                SuppressesCode, List.contains_eq_any_beq, List.any_beq]

theorem suppressesCode_merge_left {a : Codes} (b : Codes) {x : Line}
    (h : SuppressesCode a x) : SuppressesCode (mergeCodes a b) x := by
  cases b with
  | none => cases a <;> exact Or.inl rfl
  | some bs =>
      cases a with
      | none => exact Or.inl rfl
      | some as =>
          rcases h with h | ⟨cs, hcs, hx⟩
          · exact absurd h (by simp)
          · refine Or.inr ⟨as ++ bs, rfl, ?_⟩
            cases hcs
            exact List.mem_append_left _ hx

theorem suppressesCode_merge_right (a : Codes) {b : Codes} {x : Line}
    (h : SuppressesCode b x) : SuppressesCode (mergeCodes a b) x := by
  cases b with
  | none => cases a <;> exact Or.inl rfl
  | some bs =>
      cases a with
      | none => exact Or.inl rfl
      | some as =>
          rcases h with h | ⟨cs, hcs, hx⟩
          · exact absurd h (by simp)
          · refine Or.inr ⟨as ++ bs, rfl, ?_⟩
            cases hcs
            exact List.mem_append_right _ hx

theorem suppressesCode_merge_cases {a b : Codes} {x : Line}
    (h : SuppressesCode (mergeCodes a b) x) :
    SuppressesCode a x ∨ SuppressesCode b x := by
  cases b with
  | none => exact Or.inr (Or.inl rfl)
  | some bs =>
      cases a with
      | none => exact Or.inl (Or.inl rfl)
      | some as =>
          rcases h with h | ⟨cs, hcs, hx⟩
          · exact absurd h (by simp [mergeCodes])
          · simp only [mergeCodes, Option.some.injEq] at hcs
            subst hcs
            rcases List.mem_append.mp hx with hx | hx
            · exact Or.inl (Or.inr ⟨as, rfl, hx⟩)
            · exact Or.inr (Or.inr ⟨bs, rfl, hx⟩)

theorem mergeIntoMap_self {c : Codes} {x : Line} (m : DirMap) (l : Nat)
    (h : SuppressesCode c x) : MapSuppressed (mergeIntoMap m l c) x l := by
  cases hm : m l with
  | none =>
      refine ⟨c, ?_, h⟩
      simp [mergeIntoMap, hm]
  | some e =>
      refine ⟨mergeCodes e c, ?_, suppressesCode_merge_right e h⟩
      simp [mergeIntoMap, hm]

theorem mergeIntoMap_mono {m : DirMap} {x : Line} {l : Nat} (n : Nat)
    (c : Codes) (h : MapSuppressed m x l) :
    MapSuppressed (mergeIntoMap m n c) x l := by
  rcases h with ⟨e, he, hs⟩
  by_cases hl : l = n
  · subst hl
    refine ⟨mergeCodes e c, ?_, suppressesCode_merge_left c hs⟩
    simp [mergeIntoMap, he]
  · refine ⟨e, ?_, hs⟩
    simp [mergeIntoMap, hl, he]

theorem mergeIntoMap_cases {m : DirMap} {x : Line} {l n : Nat} {c : Codes}
    (h : MapSuppressed (mergeIntoMap m n c) x l) :
    MapSuppressed m x l ∨ (l = n ∧ SuppressesCode c x) := by
  rcases h with ⟨e, he, hs⟩
  by_cases hl : l = n
  · subst hl
    cases hm : m l with
    | none =>
        have hec : e = c := by
          simp [mergeIntoMap, hm] at he
          exact he.symm
        exact Or.inr ⟨rfl, hec ▸ hs⟩
    | some e0 =>
        have hme : e = mergeCodes e0 c := by
          simp [mergeIntoMap, hm] at he
          exact he.symm
        rcases suppressesCode_merge_cases (hme ▸ hs) with h0 | hc
        · exact Or.inl ⟨e0, hm, h0⟩
        · exact Or.inr ⟨rfl, hc⟩
  · left
    refine ⟨e, ?_, hs⟩
    simpa [mergeIntoMap, hl] using he

theorem stepDir_fst_mono {st : DirMap × Option Codes} {x : Line} {l : Nat}
    (ln : Nat) (line : Line) (h : MapSuppressed st.1 x l) :
    MapSuppressed (stepDir st ln line).1 x l := by
  unfold stepDir
  split
  · split
    · exact h
    · exact mergeIntoMap_mono ln _ h
  · split
    · split
      · exact mergeIntoMap_mono ln _ h
      · exact h
    · exact h

theorem goDirectives_fst_mono {x : Line} {l : Nat} :
    ∀ (ls : List Line) (ln : Nat) (st : DirMap × Option Codes),
      MapSuppressed st.1 x l →
      MapSuppressed (goDirectives ls ln st).1 x l := by
  intro ls
  induction ls with
  | nil => intro ln st h; exact h
  | cons a rest ih =>
      intro ln st h
      exact ih (ln + 1) (stepDir st ln a) (stepDir_fst_mono ln a h)

theorem goDirectives_append (l1 l2 : List Line) :
    ∀ (ln : Nat) (st : DirMap × Option Codes),
      goDirectives (l1 ++ l2) ln st =
        goDirectives l2 (ln + l1.length) (goDirectives l1 ln st) := by
  induction l1 with
  | nil => intro ln st; simp [goDirectives]
  | cons a rest ih =>
      intro ln st
      show goDirectives (rest ++ l2) (ln + 1) (stepDir st ln a) = _
      rw [ih]
      congr 1
      simp [List.length_cons]
      omega

/-- A line consumes a pending standalone directive: it carries no
directive itself and its trimmed content is neither empty nor a comment
(the condition of the pending-application branch of the parse loop). -/
def ConsumesLine (line : Line) : Prop :=
  parseDirectiveFromLine line = none ∧ trimChars line ≠ [] ∧
    ¬ dashes.isPrefixOf (trimChars line) = true

instance (line : Line) : Decidable (ConsumesLine line) := by
  unfold ConsumesLine
  infer_instance

theorem pending_applies {x : Line} :
    ∀ (ls : List Line) (ln : Nat) (m : DirMap) (p : Codes) (j : Nat),
      SuppressesCode p x →
      (∀ k, k < j → ¬ ConsumesLine (ls.getD k [])) →
      j < ls.length →
      ConsumesLine (ls.getD j []) →
      MapSuppressed (goDirectives ls ln (m, some p)).1 x (ln + j) := by
  intro ls
  induction ls with
  | nil =>
      intro ln m p j _ _ hj _
      simp at hj
  | cons a rest ih =>
      intro ln m p j hp hbetween hj hcons
      cases j with
      | zero =>
          have hc : ConsumesLine a := by simpa using hcons
          simp only [ConsumesLine] at hc
          obtain ⟨hpd, hne, hnd⟩ := hc
          have hstep : stepDir (m, some p) ln a = (mergeIntoMap m ln p, none) := by
            simp [stepDir, hpd, hne, hnd]
          show MapSuppressed
              (goDirectives rest (ln + 1) (stepDir (m, some p) ln a)).1 x (ln + 0)
          rw [hstep, Nat.add_zero]
          exact goDirectives_fst_mono rest (ln + 1) _ (mergeIntoMap_self m ln hp)
      | succ j0 =>
          have hna : ¬ ConsumesLine a := by
            simpa using hbetween 0 (Nat.succ_pos j0)
          have hbet : ∀ k, k < j0 → ¬ ConsumesLine (rest.getD k []) := by
            intro k hk
            simpa using hbetween (k + 1) (by omega)
          have hj0 : j0 < rest.length := by
            simp [List.length_cons] at hj
            omega
          have hcons0 : ConsumesLine (rest.getD j0 []) := by
            simpa using hcons
          show MapSuppressed
              (goDirectives rest (ln + 1) (stepDir (m, some p) ln a)).1 x
              (ln + (j0 + 1))
          have harith : ln + (j0 + 1) = (ln + 1) + j0 := by omega
          rw [harith]
          cases hpd : parseDirectiveFromLine a with
          | some codes =>
              by_cases hd : dashes.isPrefixOf (trimChars a) = true
              · have hstep : stepDir (m, some p) ln a =
                    (m, some (mergeCodes p codes)) := by
                  simp [stepDir, hpd, hd]
                rw [hstep]
                exact ih (ln + 1) m (mergeCodes p codes) j0
                  (suppressesCode_merge_left codes hp) hbet hj0 hcons0
              · have hstep : stepDir (m, some p) ln a =
                    (mergeIntoMap m ln codes, some p) := by
                  simp [stepDir, hpd, hd]
                rw [hstep]
                exact ih (ln + 1) (mergeIntoMap m ln codes) p j0 hp hbet hj0 hcons0
          | none =>
              have hcond : ¬ (trimChars a ≠ [] ∧
                  ¬ dashes.isPrefixOf (trimChars a) = true) := by
                intro hcc
                exact hna ⟨hpd, hcc.1, hcc.2⟩
              have hstep : stepDir (m, some p) ln a = (m, some p) := by
                simp only [stepDir, hpd]
                rw [if_neg hcond]
              rw [hstep]
              exact ih (ln + 1) m p j0 hp hbet hj0 hcons0

theorem take_succ_getD {L : List Line} {i : Nat} (hi : i < L.length) :
    L.take (i + 1) = L.take i ++ [L.getD i []] := by
  rw [List.take_succ]
  congr 1
  rw [List.getElem?_eq_getElem hi]
  simp [List.getD_eq_getElem?_getD, List.getElem?_eq_getElem hi]

theorem goDirectives_split (L : List Line) (i : Nat) (hi : i < L.length)
    (st : DirMap × Option Codes) :
    goDirectives L 1 st =
      goDirectives (L.drop (i + 1)) (i + 2)
        (stepDir (goDirectives (L.take i) 1 st) (1 + i) (L.getD i [])) := by
  have h1 : goDirectives L 1 st =
      goDirectives (L.drop (i + 1)) (1 + (L.take (i + 1)).length)
        (goDirectives (L.take (i + 1)) 1 st) := by
    conv_lhs => rw [← List.take_append_drop (i + 1) L]
    rw [goDirectives_append]
  have hlen : (L.take (i + 1)).length = i + 1 := by
    simp [List.length_take]
    omega
  have hleni : (L.take i).length = i := by
    simp [List.length_take]
    omega
  have h2 : goDirectives (L.take (i + 1)) 1 st =
      stepDir (goDirectives (L.take i) 1 st) (1 + (L.take i).length)
        (L.getD i []) := by
    rw [take_succ_getD hi, goDirectives_append]
    rfl
  rw [h1, hlen, h2, hleni]
  have harith : 1 + (i + 1) = i + 2 := by omega
  rw [harith]

theorem getD_drop (L : List Line) (n k : Nat) :
    (L.drop n).getD k [] = L.getD (n + k) [] := by
  simp [List.getD_eq_getElem?_getD, List.getElem?_drop]

/-- C3 (amended). Standalone-directive targeting as the scanner implements
it: a `-- sqlsift:disable` directive on a standalone comment line (line
`i + 1`, 1-indexed) stays pending across intervening lines that are blank,
comments, or carry a directive of their own, and its codes are applied to the
next line `j + 1` that carries no directive and whose trimmed content is
neither empty nor a comment. Consecutive standalone directives accumulate
onto that same target line (the conclusion holds for each of them). A line
that contains SQL followed by its own inline directive is skipped by the
pending directive, contrary to the original claim. -/
theorem inline_directive_pending_target (s : String) (i j : Nat) (c : Codes)
    (x : Line) (hij : i < j) (hj : j < (rustLines s).length)
    (hdir : parseDirectiveFromLine ((rustLines s).getD i []) = some c)
    (hsa : dashes.isPrefixOf (trimChars ((rustLines s).getD i [])) = true)
    (hbetween : ∀ k, i < k → k < j → ¬ ConsumesLine ((rustLines s).getD k []))
    (htarget : ConsumesLine ((rustLines s).getD j []))
    (hx : SuppressesCode c x) :
    (InlineDirectives.parse s).is_suppressed x (j + 1) = true := by
  have hi : i < (rustLines s).length := by omega
  rw [InlineDirectives.parse, is_suppressed_iff]
  rw [goDirectives_split (rustLines s) i hi]
  set e := (rustLines s).getD i [] with hE
  obtain ⟨m0, p0⟩ := goDirectives ((rustLines s).take i) 1 (fun _ => none, none)
  have hstep : ∃ q, stepDir (m0, p0) (1 + i) e = (m0, some q) ∧
      SuppressesCode q x := by
    cases p0 with
    | none =>
        refine ⟨c, ?_, hx⟩
        simp [stepDir, hdir, hsa]
    | some ex =>
        refine ⟨mergeCodes ex c, ?_, suppressesCode_merge_right ex hx⟩
        simp [stepDir, hdir, hsa]
  obtain ⟨q, hq, hqx⟩ := hstep
  rw [hq]
  have happ := pending_applies ((rustLines s).drop (i + 1)) (i + 2) m0 q
    (j - (i + 1)) hqx
    (fun k hk => by
      rw [getD_drop]
      exact hbetween (i + 1 + k) (by omega) (by omega))
    (by simp [List.length_drop]; omega)
    (by rw [getD_drop]; have hje : i + 1 + (j - (i + 1)) = j := by omega
        rw [hje]; exact htarget)
  have hline : i + 2 + (j - (i + 1)) = j + 1 := by omega
  rw [hline] at happ
  exact happ

/-- The 1-indexed number of the first line of `ls` (whose first line has
number `ln`) that consumes a pending directive. -/
def firstConsuming : List Line → Nat → Option Nat
  | [], _ => none
  | a :: rest, ln =>
      if ConsumesLine a then some ln else firstConsuming rest (ln + 1)

/-- The line number targeted by the directive on the `i`-th line of `ls`
(whose first line has number `ln`): a standalone directive (comment line)
targets the first consuming line after it, an inline directive targets its
own line. -/
def targetIn (ls : List Line) (ln : Nat) (i : Nat) : Option Nat :=
  if dashes.isPrefixOf (trimChars (ls.getD i [])) = true then
    firstConsuming (ls.drop (i + 1)) (ln + i + 1)
  else some (ln + i)

theorem firstConsuming_cons_pos {a : Line} (rest : List Line) (ln : Nat)
    (h : ConsumesLine a) : firstConsuming (a :: rest) ln = some ln := by
  simp [firstConsuming, h]

theorem firstConsuming_cons_neg {a : Line} (rest : List Line) (ln : Nat)
    (h : ¬ ConsumesLine a) :
    firstConsuming (a :: rest) ln = firstConsuming rest (ln + 1) := by
  simp [firstConsuming, h]

theorem targetIn_cons_succ (a : Line) (rest : List Line) (ln i : Nat) :
    targetIn (a :: rest) ln (i + 1) = targetIn rest (ln + 1) i := by
  unfold targetIn
  have h1 : ln + (i + 1) + 1 = ln + 1 + i + 1 := by omega
  have h2 : ln + (i + 1) = ln + 1 + i := by omega
  simp only [List.getD_cons_succ, List.drop_succ_cons, h1, h2]

theorem targetIn_cons_zero_dash {a : Line} (rest : List Line) (ln : Nat)
    (h : dashes.isPrefixOf (trimChars a) = true) :
    targetIn (a :: rest) ln 0 = firstConsuming rest (ln + 1) := by
  simp [targetIn, h]

theorem targetIn_cons_zero_nodash {a : Line} (rest : List Line) (ln : Nat)
    (h : ¬ dashes.isPrefixOf (trimChars a) = true) :
    targetIn (a :: rest) ln 0 = some ln := by
  simp [targetIn, h]

theorem goDirectives_suppressed_source (x : Line) (l : Nat) :
    ∀ (ls : List Line) (ln : Nat) (st : DirMap × Option Codes),
      MapSuppressed (goDirectives ls ln st).1 x l →
      MapSuppressed st.1 x l ∨
      (∃ q, st.2 = some q ∧ SuppressesCode q x ∧
        firstConsuming ls ln = some l) ∨
      (∃ i c, i < ls.length ∧
        parseDirectiveFromLine (ls.getD i []) = some c ∧
        SuppressesCode c x ∧ targetIn ls ln i = some l) := by
  intro ls
  induction ls with
  | nil =>
      intro ln st h
      exact Or.inl h
  | cons a rest ih =>
      intro ln st h
      obtain ⟨m, p⟩ := st
      have hstep : goDirectives (a :: rest) ln (m, p) =
          goDirectives rest (ln + 1) (stepDir (m, p) ln a) := rfl
      rw [hstep] at h
      cases hpd : parseDirectiveFromLine a with
      | some codes =>
          have hna : ¬ ConsumesLine a := by
            intro hca
            simp [ConsumesLine, hpd] at hca
          by_cases hd : dashes.isPrefixOf (trimChars a) = true
          · have hst : stepDir (m, p) ln a =
                (m, some (match p with
                          | some ex => mergeCodes ex codes
                          | none => codes)) := by
              cases p <;> simp [stepDir, hpd, hd]
            rw [hst] at h
            rcases ih (ln + 1) _ h with h1 | ⟨q, hq, hqx, hfc⟩ | ⟨i, c, hi, hdc, hcx, ht⟩
            · exact Or.inl h1
            · simp only [Option.some.injEq] at hq
              cases p with
              | none =>
                  subst hq
                  refine Or.inr (Or.inr ⟨0, codes, by simp, by simpa using hpd,
                    hqx, ?_⟩)
                  rw [targetIn_cons_zero_dash rest ln hd]
                  exact hfc
              | some ex =>
                  subst hq
                  rcases suppressesCode_merge_cases hqx with hex | hcodes
                  · refine Or.inr (Or.inl ⟨ex, rfl, hex, ?_⟩)
                    rw [firstConsuming_cons_neg rest ln hna]
                    exact hfc
                  · refine Or.inr (Or.inr ⟨0, codes, by simp,
                      by simpa using hpd, hcodes, ?_⟩)
                    rw [targetIn_cons_zero_dash rest ln hd]
                    exact hfc
            · refine Or.inr (Or.inr ⟨i + 1, c, by simp; omega,
                by simpa using hdc, hcx, ?_⟩)
              rw [targetIn_cons_succ]
              exact ht
          · have hst : stepDir (m, p) ln a = (mergeIntoMap m ln codes, p) := by
              simp [stepDir, hpd, hd]
            rw [hst] at h
            rcases ih (ln + 1) _ h with h1 | ⟨q, hq, hqx, hfc⟩ | ⟨i, c, hi, hdc, hcx, ht⟩
            · rcases mergeIntoMap_cases h1 with h2 | ⟨hl, hcodes⟩
              · exact Or.inl h2
              · refine Or.inr (Or.inr ⟨0, codes, by simp, by simpa using hpd,
                  hcodes, ?_⟩)
                rw [targetIn_cons_zero_nodash rest ln hd, hl]
            · refine Or.inr (Or.inl ⟨q, hq, hqx, ?_⟩)
              rw [firstConsuming_cons_neg rest ln hna]
              exact hfc
            · refine Or.inr (Or.inr ⟨i + 1, c, by simp; omega,
                by simpa using hdc, hcx, ?_⟩)
              rw [targetIn_cons_succ]
              exact ht
      | none =>
          cases p with
          | some q0 =>
              by_cases hc : trimChars a ≠ [] ∧
                  ¬ dashes.isPrefixOf (trimChars a) = true
              · have hca : ConsumesLine a := ⟨hpd, hc.1, hc.2⟩
                have hst : stepDir (m, some q0) ln a =
                    (mergeIntoMap m ln q0, none) := by
                  simp only [stepDir, hpd]
                  rw [if_pos hc]
                rw [hst] at h
                rcases ih (ln + 1) _ h with h1 | ⟨q, hq, _, _⟩ | ⟨i, c, hi, hdc, hcx, ht⟩
                · rcases mergeIntoMap_cases h1 with h2 | ⟨hl, hq0⟩
                  · exact Or.inl h2
                  · refine Or.inr (Or.inl ⟨q0, rfl, hq0, ?_⟩)
                    rw [firstConsuming_cons_pos rest ln hca, hl]
                · exact absurd hq (by simp)
                · refine Or.inr (Or.inr ⟨i + 1, c, by simp; omega,
                    by simpa using hdc, hcx, ?_⟩)
                  rw [targetIn_cons_succ]
                  exact ht
              · have hna : ¬ ConsumesLine a := by
                  intro hca
                  exact hc ⟨hca.2.1, hca.2.2⟩
                have hst : stepDir (m, some q0) ln a = (m, some q0) := by
                  simp only [stepDir, hpd]
                  rw [if_neg hc]
                rw [hst] at h
                rcases ih (ln + 1) _ h with h1 | ⟨q, hq, hqx, hfc⟩ | ⟨i, c, hi, hdc, hcx, ht⟩
                · exact Or.inl h1
                · refine Or.inr (Or.inl ⟨q, hq, hqx, ?_⟩)
                  rw [firstConsuming_cons_neg rest ln hna]
                  exact hfc
                · refine Or.inr (Or.inr ⟨i + 1, c, by simp; omega,
                    by simpa using hdc, hcx, ?_⟩)
                  rw [targetIn_cons_succ]
                  exact ht
          | none =>
              have hst : stepDir (m, none) ln a = (m, none) := by
                simp [stepDir, hpd]
              rw [hst] at h
              rcases ih (ln + 1) _ h with h1 | ⟨q, hq, _, _⟩ | ⟨i, c, hi, hdc, hcx, ht⟩
              · exact Or.inl h1
              · exact absurd hq (by simp)
              · refine Or.inr (Or.inr ⟨i + 1, c, by simp; omega,
                  by simpa using hdc, hcx, ?_⟩)
                rw [targetIn_cons_succ]
                exact ht

/-- Is `needle` a contiguous substring of `hay`? -/
def containsSub (needle hay : Line) : Bool :=
  hay.tails.any (fun t => needle.isPrefixOf t)

example : containsSub "ambiguous".toList
    ("column " ++ quoted "id" ++ " is ambiguous").toList = true := by decide

theorem foldl_ddlStep_fst :
    ∀ (l : List DdlStmt) (c : Catalog) (ds ds2 : List Diagnostic),
      (List.foldl ddlStep (c, ds) l).1 = (List.foldl ddlStep (c, ds2) l).1 := by
  intro l
  induction l with
  | nil => intro c ds ds2; rfl
  | cons s rest ih =>
      intro c ds ds2
      exact ih (ddlCatalogEffect c s) (ds ++ ddlDiags c s) (ds2 ++ ddlDiags c s)

theorem foldl_ddlStep_snd_mem {d : Diagnostic} :
    ∀ (l : List DdlStmt) (c : Catalog) (ds : List Diagnostic),
      d ∈ ds → d ∈ (List.foldl ddlStep (c, ds) l).2 := by
  intro l
  induction l with
  | nil => intro c ds h; exact h
  | cons s rest ih =>
      intro c ds h
      exact ih (ddlCatalogEffect c s) (ds ++ ddlDiags c s)
        (List.mem_append_left _ h)

theorem ddlStep_missing_alter {c : Catalog} {ds : List Diagnostic}
    {stmt : DdlStmt} {t : String} (halter : alterTarget stmt = some t)
    (hmiss : lookupTable c t = none) :
    ddlStep (c, ds) stmt = (c, ds ++ [missingAlterWarning t]) := by
  cases stmt with
  | createTable tb => exact absurd halter (by simp [alterTarget])
  | alterAddColumn t0 col =>
      simp only [alterTarget, Option.some.injEq] at halter
      subst halter
      simp [ddlStep, ddlCatalogEffect, ddlDiags, alterTarget, hmiss]
  | alterDropColumn t0 col =>
      simp only [alterTarget, Option.some.injEq] at halter
      subst halter
      simp [ddlStep, ddlCatalogEffect, ddlDiags, alterTarget, hmiss]
  | alterRenameColumn t0 a b =>
      simp only [alterTarget, Option.some.injEq] at halter
      subst halter
      simp [ddlStep, ddlCatalogEffect, ddlDiags, alterTarget, hmiss]
  | alterRenameTable t0 u =>
      simp only [alterTarget, Option.some.injEq] at halter
      subst halter
      simp [ddlStep, ddlCatalogEffect, ddlDiags, alterTarget, hmiss]

theorem resolveFromItem_frame_len (cat : Catalog) (ln : Nat) (it : FromItem) :
    (resolveFromItem cat ln it).2.length ≤ 1 := by
  unfold resolveFromItem
  cases lookupTable cat it.table <;> simp

theorem resolveFromItem_diag_kind (cat : Catalog) (ln : Nat) (it : FromItem) :
    ∀ d ∈ (resolveFromItem cat ln it).1, d.kind = .TableNotFound := by
  intro d hd
  unfold resolveFromItem at hd
  cases h : lookupTable cat it.table with
  | some t => rw [h] at hd; simp at hd
  | none =>
      rw [h] at hd
      simp at hd
      subst hd
      rfl

theorem buildFrame_len (cat : Catalog) (ln : Nat) :
    ∀ items : List FromItem, (buildFrame cat ln items).2.length ≤ items.length := by
  intro items
  induction items with
  | nil => simp [buildFrame]
  | cons it rest ih =>
      have h1 := resolveFromItem_frame_len cat ln it
      simp only [buildFrame, List.length_append, List.length_cons]
      omega

theorem buildFrame_diag_kind (cat : Catalog) (ln : Nat) :
    ∀ (items : List FromItem) (d : Diagnostic),
      d ∈ (buildFrame cat ln items).1 → d.kind = .TableNotFound := by
  intro items
  induction items with
  | nil => intro d hd; simp [buildFrame] at hd
  | cons it rest ih =>
      intro d hd
      simp only [buildFrame] at hd
      rcases List.mem_append.mp hd with hd | hd
      · exact resolveFromItem_diag_kind cat ln it d hd
      · exact ih d hd

/-- Every frame of the stack holds at most one binding. -/
def FramesSmall (stack : List Frame) : Prop :=
  ∀ f ∈ stack, f.length ≤ 1

theorem frameMatches_len (f : Frame) (c : String) :
    (frameMatches f c).length ≤ f.length :=
  List.length_filter_le _ _

theorem resolveUnqualified_not_amb :
    ∀ (stack : List Frame) (c : String), FramesSmall stack →
      resolveUnqualified stack c ≠ .ambiguous := by
  intro stack
  induction stack with
  | nil => intro c _ h; simp [resolveUnqualified] at h
  | cons f outer ih =>
      intro c hs h
      cases hm : frameMatches f c with
      | nil =>
          have h2 : resolveUnqualified (f :: outer) c =
              resolveUnqualified outer c := by
            simp [resolveUnqualified, hm]
          rw [h2] at h
          exact ih c (fun g hg => hs g (List.mem_cons_of_mem f hg)) h
      | cons b tail =>
          cases tail with
          | nil => simp [resolveUnqualified, hm] at h
          | cons b2 t2 =>
              have hlen : (frameMatches f c).length ≤ 1 :=
                le_trans (frameMatches_len f c) (hs f (List.mem_cons_self f outer))
              rw [hm] at hlen
              simp at hlen

theorem resolveQualified_not_amb (stack : List Frame) (a c : String) :
    resolveQualified stack a c ≠ .ambiguous := by
  intro h
  cases hf : findBinding stack a with
  | none => simp [resolveQualified, hf] at h
  | some b =>
      cases hc : lookupColumn b.columns c with
      | some col => simp [resolveQualified, hf, hc] at h
      | none => simp [resolveQualified, hf, hc] at h

theorem resolveRef_not_amb (stack : List Frame) (r : ColRef)
    (hs : FramesSmall stack) : resolveRef stack r ≠ .ambiguous := by
  cases r with
  | qual t c => exact resolveQualified_not_amb stack t c
  | unqual c => exact resolveUnqualified_not_amb stack c hs

theorem refDiags_no_amb {ln : Nat} {stack : List Frame} {r : ColRef}
    (hs : FramesSmall stack) :
    ∀ d ∈ refDiags ln stack r, d.kind ≠ .AmbiguousColumn := by
  intro d hd hk
  cases hres : resolveRef stack r with
  | ok t => simp [refDiags, hres] at hd
  | ambiguous => exact resolveRef_not_amb stack r hs hres
  | colNotFound =>
      simp [refDiags, hres] at hd
      subst hd
      simp [mkDiag] at hk
  | tblNotFound t =>
      simp [refDiags, hres] at hd
      subst hd
      simp [mkDiag] at hk

theorem compatCheck_kind (t : SqlType) (lit : Literal) (ln : Nat) :
    ∀ d ∈ compatCheck t lit ln, d.kind = .TypeMismatch := by
  intro d hd
  cases lit with
  | nullLit => simp [compatCheck] at hd
  | strLit s =>
      simp only [compatCheck] at hd
      split at hd
      · simp at hd
      · simp at hd
        subst hd
        rfl
  | intLit n =>
      simp only [compatCheck] at hd
      split at hd
      · simp at hd
      · simp at hd
        subst hd
        rfl
  | floatLit n =>
      simp only [compatCheck] at hd
      split at hd
      · simp at hd
      · simp at hd
        subst hd
        rfl
  | boolLit b =>
      simp only [compatCheck] at hd
      split at hd
      · simp at hd
      · simp at hd
        subst hd
        rfl

theorem cmpLitDiags_no_amb {ln : Nat} {stack : List Frame} {r : ColRef}
    {lit : Literal} (hs : FramesSmall stack) :
    ∀ d ∈ cmpLitDiags ln stack r lit, d.kind ≠ .AmbiguousColumn := by
  intro d hd
  cases hres : resolveRef stack r with
  | ok t =>
      simp only [cmpLitDiags, hres] at hd
      intro hk
      rw [compatCheck_kind t lit ln d hd] at hk
      simp at hk
  | ambiguous => exact absurd hres (resolveRef_not_amb stack r hs)
  | colNotFound =>
      simp only [cmpLitDiags, hres] at hd
      exact refDiags_no_amb hs d hd
  | tblNotFound t =>
      simp only [cmpLitDiags, hres] at hd
      exact refDiags_no_amb hs d hd

theorem analyzeSubQ_no_amb {cat : Catalog} {ln : Nat} {outer : List Frame}
    {q : SubQ} (hs : FramesSmall outer) (hq : q.fromItems.length ≤ 1) :
    ∀ d ∈ analyzeSubQ cat ln outer q, d.kind ≠ .AmbiguousColumn := by
  intro d hd
  have hstack : FramesSmall ((buildFrame cat ln q.fromItems).2 :: outer) := by
    intro f hf
    rcases List.mem_cons.mp hf with hf | hf
    · subst hf
      exact le_trans (buildFrame_len cat ln q.fromItems) hq
    · exact hs f hf
  simp only [analyzeSubQ] at hd
  rcases List.mem_append.mp hd with hd | hd
  · rcases List.mem_append.mp hd with hd | hd
    · intro hk
      rw [buildFrame_diag_kind cat ln q.fromItems d hd] at hk
      simp at hk
    · rcases List.mem_flatMap.mp hd with ⟨r, _, hdr⟩
      exact refDiags_no_amb hstack d hdr
  · rcases List.mem_flatMap.mp hd with ⟨p, _, hdp⟩
    exact cmpLitDiags_no_amb hstack d hdp

/-- Subqueries of a condition draw on at most one `FROM` item. -/
def CondSmall : Cond → Prop
  | .inSub _ q => q.fromItems.length ≤ 1
  | .existsSub q => q.fromItems.length ≤ 1
  | _ => True

theorem condDiags_no_amb {cat : Catalog} {ln : Nat} {stack : List Frame}
    {cond : Cond} (hs : FramesSmall stack) (hc : CondSmall cond) :
    ∀ d ∈ condDiags cat ln stack cond, d.kind ≠ .AmbiguousColumn := by
  intro d hd
  cases cond with
  | ref r => exact refDiags_no_amb hs d hd
  | cmpLit r lit => exact cmpLitDiags_no_amb hs d hd
  | inSub r q =>
      simp only [condDiags] at hd
      rcases List.mem_append.mp hd with hd | hd
      · exact refDiags_no_amb hs d hd
      · exact analyzeSubQ_no_amb hs (by simpa [CondSmall] using hc) d hd
  | existsSub q =>
      simp only [condDiags] at hd
      exact analyzeSubQ_no_amb hs (by simpa [CondSmall] using hc) d hd

theorem analyzeUpdate_no_amb {cat : Catalog} {t : String}
    {sets : List (String × Literal)} {conds : List Cond} {ln : Nat}
    {tb : Table} (hlook : lookupTable cat t = some tb)
    (hconds : ∀ c ∈ conds, CondSmall c) :
    ∀ d ∈ analyzeStmt cat ln (.update t sets conds),
      d.kind ≠ .AmbiguousColumn := by
  intro d hd
  simp only [analyzeStmt, hlook] at hd
  have hs : FramesSmall [[⟨t, tb.columns⟩]] := by
    intro f hf
    simp at hf
    subst hf
    simp
  rcases List.mem_append.mp hd with hd | hd
  · rcases List.mem_flatMap.mp hd with ⟨p, _, hdp⟩
    exact cmpLitDiags_no_amb hs d hdp
  · rcases List.mem_flatMap.mp hd with ⟨c0, hc0, hdc⟩
    exact condDiags_no_amb hs (hconds c0 hc0) d hdc

theorem ddlStep_missing_alter2 {st : Catalog × List Diagnostic}
    {stmt : DdlStmt} {t : String} (halter : alterTarget stmt = some t)
    (hmiss : lookupTable st.1 t = none) :
    ddlStep st stmt = (st.1, st.2 ++ [missingAlterWarning t]) := by
  obtain ⟨c, ds⟩ := st
  exact ddlStep_missing_alter halter hmiss

theorem analyzeRepeat_eq (inp : SqlInput) :
    ∀ (n : Nat) (a : Analyzer),
      analyzeRepeat a inp n =
        List.replicate n (analyzeSql a.catalog a.dialect inp) := by
  intro n
  induction n with
  | zero => intro a; rfl
  | succ n ih =>
      intro a
      simp only [analyzeRepeat, Analyzer.analyze, List.replicate_succ]
      exact congrArg _ (ih _)

/-- C6. Ambiguous unqualified column: against `users(id, name, email)` and
`orders(id, user_id, total)`, the query
`SELECT id FROM users JOIN orders ON users.id = orders.user_id` yields
exactly one diagnostic, of kind `AmbiguousColumn` (code E0004), whose
message contains both "ambiguous" and "id". -/
theorem c6_ambiguous_column :
    analyzeStmt setupCatalog 1 ambiguousSelect =
      [mkDiag .AmbiguousColumn ("column " ++ quoted "id" ++ " is ambiguous") 1] ∧
    DiagnosticKind.code .AmbiguousColumn = "E0004" ∧
    containsSub "ambiguous".toList
      ("column " ++ quoted "id" ++ " is ambiguous").toList = true ∧
    containsSub "id".toList
      ("column " ++ quoted "id" ++ " is ambiguous").toList = true := by
  refine ⟨by decide, rfl, by decide, by decide⟩

/-- C5. UUID literal promotion: a string literal compared with a `Uuid`
column passes the compatibility check exactly when it has the canonical
8-4-4-4-12 hexadecimal form and is a `TypeMismatch` otherwise; against
`users(id UUID PRIMARY KEY)`,
`SELECT * FROM users WHERE id = '123e4567-e89b-12d3-a456-426614174000'`
yields no diagnostics while `SELECT * FROM users WHERE id = 42` yields
exactly one diagnostic of kind `TypeMismatch` (code E0003). -/
theorem c5_uuid_promotion :
    (∀ (s : String) (ln : Nat),
      compatCheck .Uuid (.strLit s) ln =
        if isCanonicalUuid s.toList = true then []
        else [mkDiag .TypeMismatch "type mismatch: incompatible literal" ln]) ∧
    analyzeStmt uuidCatalog 1
      (uuidSelect (.strLit "123e4567-e89b-12d3-a456-426614174000")) = [] ∧
    analyzeStmt uuidCatalog 1 (uuidSelect (.intLit 42)) =
      [mkDiag .TypeMismatch "type mismatch: incompatible literal" 1] ∧
    DiagnosticKind.code .TypeMismatch = "E0003" := by
  refine ⟨fun s ln => rfl, by decide, by decide, rfl⟩

/-- C2. Inline suppression end-to-end: against a catalog with `users(id)`,
the three-line input
`-- sqlsift:disable E0002` / `SELECT bad FROM users;` /
`SELECT worse FROM users` produces exactly one diagnostic — a
`ColumnNotFound` (code E0002) on line 3 whose message names `worse` — and
the scanner indeed suppresses code E0002 on line 2, dropping the
diagnostic for `bad` before delivery. -/
theorem c2_inline_suppression :
    analyzeSql c2Catalog .PostgreSQL c2Input =
      [mkDiag .ColumnNotFound ("column " ++ quoted "worse" ++ " not found") 3] ∧
    DiagnosticKind.code .ColumnNotFound = "E0002" ∧
    diagLine
      (mkDiag .ColumnNotFound ("column " ++ quoted "worse" ++ " not found") 3)
      = 3 ∧
    containsSub "worse".toList
      ("column " ++ quoted "worse" ++ " not found").toList = true ∧
    (InlineDirectives.parse c2Text).is_suppressed "E0002".toList 2 = true := by
  refine ⟨by decide, rfl, rfl, by decide, by decide⟩

/-- C1. Scope isolation: in the model the bindings of a non-`LATERAL`
subquery live on their own frame, pushed above the enclosing frames and
discarded afterwards. Whatever the columns of `latest_purchase_refs` are —
in particular when they share names such as `id` with the outer table —
analyzing the `UPDATE … WHERE … IN (SELECT …)` statement never produces an
`AmbiguousColumn` diagnostic; the concrete UPDATE and EXISTS fixtures
produce no diagnostics at all; and a reference to the subquery's binding
from the outer scope after the subquery fails with `TableNotFound`, the
binding not being visible outside the subquery. -/
theorem c1_scope_isolation :
    (∀ cols : List Column,
      (analyzeStmt (c1Catalog cols) 1 c1Update).filter
        (fun d => decide (d.kind = DiagnosticKind.AmbiguousColumn)) = []) ∧
    analyzeStmt (c1Catalog refsCols) 1 c1Update = [] ∧
    analyzeStmt setupCatalog 1 c1Exists = [] ∧
    analyzeStmt (c1Catalog refsCols) 1 c1UpdateOuterRef =
      [mkDiag .TableNotFound
        ("table " ++ quoted "latest_purchase_refs" ++ " not found") 1] := by
  refine ⟨?_, by decide, by decide, by decide⟩
  intro cols
  apply List.filter_eq_nil_iff.mpr
  intro d hd
  simp only [decide_eq_true_eq]
  simp only [c1Update] at hd
  have hlook : lookupTable (c1Catalog cols) "purchases" = some purchasesTable :=
    rfl
  refine analyzeUpdate_no_amb hlook ?_ d hd
  intro c0 hc0
  simp at hc0
  subst hc0
  simp [CondSmall]

/-- C8. Idempotence and determinism of `analyze`: with the catalog
read-only and analysis a pure function of catalog, dialect and input,
`n` successive calls on the same analyzer all return the same diagnostic
list in the same order, and a call leaves the catalog and dialect
unchanged. -/
theorem c8_analyze_idempotent (a : Analyzer) (inp : SqlInput) (n : Nat) :
    analyzeRepeat a inp n =
      List.replicate n (analyzeSql a.catalog a.dialect inp) ∧
    (a.analyze inp).2.catalog = a.catalog ∧
    (a.analyze inp).2.dialect = a.dialect := by
  exact ⟨analyzeRepeat_eq inp n a, rfl, rfl⟩

/-- The input refuting the original targeting claim: a standalone
directive for E0001, followed by a SQL line that carries its own inline
directive. -/
def c3CexText : String :=
  "-- sqlsift:disable E0001\nSELECT x FROM t -- sqlsift:disable E0002"

/-- C3, counterexample to the claim as stated. In `c3CexText`, line 2 is
the next line whose trimmed content is neither empty nor a comment, so
the claim says the pending `E0001` is applied to line 2; but because line
2 itself contains an inline `sqlsift:disable` comment the parse loop
takes the inline-directive branch and never consumes the pending
directive, so `E0001` is not suppressed on line 2 (its own `E0002` is). -/
theorem c3_pending_target_counterexample :
    trimChars ((rustLines c3CexText).getD 1 []) ≠ [] ∧
    ¬ dashes.isPrefixOf (trimChars ((rustLines c3CexText).getD 1 [])) = true ∧
    parseDirectiveFromLine ((rustLines c3CexText).getD 0 []) =
      some (some ["E0001".toList]) ∧
    dashes.isPrefixOf (trimChars ((rustLines c3CexText).getD 0 [])) = true ∧
    (InlineDirectives.parse c3CexText).is_suppressed "E0001".toList 2 = false ∧
    (InlineDirectives.parse c3CexText).is_suppressed "E0002".toList 2 = true := by
  decide

/-- The input of the amended-claim witness: a standalone directive, a
blank line and a comment line, then the target SQL line. -/
def c3WitnessText : String :=
  "-- sqlsift:disable E0002\n\n-- a comment\nSELECT bad FROM users"

theorem c3_pending_target_witness :
    ((0 : Nat) < 3 ∧ 3 < (rustLines c3WitnessText).length ∧
      parseDirectiveFromLine ((rustLines c3WitnessText).getD 0 []) =
        some (some ["E0002".toList]) ∧
      dashes.isPrefixOf (trimChars ((rustLines c3WitnessText).getD 0 [])) = true ∧
      ConsumesLine ((rustLines c3WitnessText).getD 3 []) ∧
      SuppressesCode (some ["E0002".toList]) "E0002".toList) ∧
    (InlineDirectives.parse c3WitnessText).is_suppressed "E0002".toList 4 = true := by
  have hb : ∀ k, k < 3 → 0 < k →
      ¬ ConsumesLine ((rustLines c3WitnessText).getD k []) := by decide
  refine ⟨⟨by decide, by decide, by decide, by decide, by decide,
    Or.inr ⟨["E0002".toList], rfl, by decide⟩⟩, ?_⟩
  exact inline_directive_pending_target c3WitnessText 0 3
    (some ["E0002".toList]) "E0002".toList (by decide) (by decide) (by decide)
    (by decide) (fun k h1 h2 => hb k h2 h1) (by decide)
    (Or.inr ⟨["E0002".toList], rfl, by decide⟩)

/-- C4. Directive safety: whenever `is_suppressed code line` holds for the
directives parsed from any SQL text, some line of the text carries a
`sqlsift:disable` directive that either disables all rules or lists that
exact code, and the line that directive targets (its own line for an
inline directive, the first consuming line after it for a standalone one)
is exactly the suppressed line. Hence a directive listing specific codes
never suppresses an unlisted code on its line, nor its code on any other
line. -/
theorem c4_directive_safety (s : String) (x : Line) (l : Nat)
    (h : (InlineDirectives.parse s).is_suppressed x l = true) :
    ∃ i c, i < (rustLines s).length ∧
      parseDirectiveFromLine ((rustLines s).getD i []) = some c ∧
      SuppressesCode c x ∧ targetIn (rustLines s) 1 i = some l := by
  rw [InlineDirectives.parse, is_suppressed_iff] at h
  rcases goDirectives_suppressed_source x l (rustLines s) 1
      (fun _ => none, none) h with h1 | ⟨q, hq, _, _⟩ | h3
  · rcases h1 with ⟨e, he, _⟩
    exact absurd he (by simp)
  · exact absurd hq (by simp)
  · exact h3

theorem c4_directive_safety_witness :
    (InlineDirectives.parse
        "SELECT a FROM t -- sqlsift:disable E0001").is_suppressed
      "E0001".toList 1 = true ∧
    ∃ i c,
      i < (rustLines "SELECT a FROM t -- sqlsift:disable E0001").length ∧
      parseDirectiveFromLine
        ((rustLines "SELECT a FROM t -- sqlsift:disable E0001").getD i []) =
        some c ∧
      SuppressesCode c "E0001".toList ∧
      targetIn (rustLines "SELECT a FROM t -- sqlsift:disable E0001") 1 i =
        some 1 :=
  ⟨by decide,
   c4_directive_safety "SELECT a FROM t -- sqlsift:disable E0001"
     "E0001".toList 1 (by decide)⟩

/-- C7. `ALTER` never aborts the batch: inserting an `ALTER TABLE`
statement whose target is missing from the in-progress catalog into any
DDL batch leaves the resulting catalog exactly what it would have been
without that statement (so the effects of all other statements are
preserved and `build` still returns a catalog), and a `TableNotFound`
warning is recorded among the schema diagnostics. -/
theorem c7_alter_missing_target (pre post : List DdlStmt) (stmt : DdlStmt)
    (t : String) (halter : alterTarget stmt = some t)
    (hmiss : lookupTable (buildCatalog pre).1 t = none) :
    (buildCatalog (pre ++ stmt :: post)).1 = (buildCatalog (pre ++ post)).1 ∧
    missingAlterWarning t ∈ (buildCatalog (pre ++ stmt :: post)).2 ∧
    (missingAlterWarning t).severity = Severity.warning ∧
    (missingAlterWarning t).kind = .TableNotFound := by
  have hA : buildCatalog (pre ++ stmt :: post) =
      List.foldl ddlStep
        ((buildCatalog pre).1,
          (buildCatalog pre).2 ++ [missingAlterWarning t]) post := by
    unfold buildCatalog at hmiss ⊢
    rw [List.foldl_append, List.foldl_cons,
      ddlStep_missing_alter2 halter hmiss]
  refine ⟨?_, ?_, rfl, rfl⟩
  · rw [hA, foldl_ddlStep_fst post (buildCatalog pre).1 _ (buildCatalog pre).2]
    show (List.foldl ddlStep ((buildCatalog pre).1, (buildCatalog pre).2) post).1 = _
    rw [Prod.mk.eta]
    unfold buildCatalog
    rw [List.foldl_append]
  · rw [hA]
    exact foldl_ddlStep_snd_mem post _ _
      (List.mem_append_right _ (List.mem_singleton.mpr rfl))

theorem c7_alter_missing_target_witness :
    (alterTarget (DdlStmt.alterAddColumn "nonexistent" ⟨"foo", .Text⟩) =
        some "nonexistent" ∧
      lookupTable (buildCatalog []).1 "nonexistent" = none) ∧
    (buildCatalog
        [DdlStmt.alterAddColumn "nonexistent" ⟨"foo", .Text⟩]).1 =
      (buildCatalog []).1 ∧
    missingAlterWarning "nonexistent" ∈
      (buildCatalog [DdlStmt.alterAddColumn "nonexistent" ⟨"foo", .Text⟩]).2 :=
  ⟨⟨rfl, rfl⟩,
   (c7_alter_missing_target [] []
      (DdlStmt.alterAddColumn "nonexistent" ⟨"foo", .Text⟩)
      "nonexistent" rfl rfl).1,
   (c7_alter_missing_target [] []
      (DdlStmt.alterAddColumn "nonexistent" ⟨"foo", .Text⟩)
      "nonexistent" rfl rfl).2.1⟩

/-- C9 (amended). Span conversion: for a span with `line ≥ 1` and
`column ≥ 1` whose 0-indexed coordinates fit in a `u32` — that is,
`line − 1 < 2^32` and `(column − 1) + length < 2^32` — the LSP adapter
returns exactly the 0-indexed range from `(line − 1, column − 1)` to
`(line − 1, (column − 1) + length)` on the same line. (Without the
fitting condition the `as u32` casts reduce each coordinate modulo 2^32,
as the counterexample shows.) -/
theorem c9_span_conversion (s : Span) (h1 : 1 ≤ s.line) (h2 : 1 ≤ s.column)
    (h3 : s.line - 1 < U32MOD) (h4 : s.column - 1 + s.length < U32MOD) :
    span_to_range (some s) =
      ⟨⟨s.line - 1, s.column - 1⟩,
       ⟨s.line - 1, s.column - 1 + s.length⟩⟩ := by
  have hl : (s.line - 1) % U32MOD = s.line - 1 := Nat.mod_eq_of_lt h3
  have hc : (s.column - 1) % U32MOD = s.column - 1 :=
    Nat.mod_eq_of_lt (lt_of_le_of_lt (Nat.le_add_right _ _) h4)
  have hlen : s.length % U32MOD = s.length :=
    Nat.mod_eq_of_lt (lt_of_le_of_lt (Nat.le_add_left _ _) h4)
  have hsum : (s.column - 1 + s.length) % U32MOD = s.column - 1 + s.length :=
    Nat.mod_eq_of_lt h4
  show (if s.line > 0 then _ else Range.default) = _
  rw [if_pos (by omega : s.line > 0)]
  rw [hl, hc, hlen, hsum]

theorem c9_span_conversion_witness :
    ((1 : Nat) ≤ 1 ∧ (1 : Nat) - 1 < U32MOD ∧ (1 : Nat) - 1 + 5 < U32MOD) ∧
    span_to_range (some ⟨1, 1, 5⟩) = ⟨⟨0, 0⟩, ⟨0, 5⟩⟩ :=
  ⟨⟨le_refl 1, by decide, by decide⟩,
   by
    have h := c9_span_conversion ⟨1, 1, 5⟩ (by decide) (by decide)
      (by decide) (by decide)
    simpa using h⟩

/-- C9, counterexample to the claim as stated. The claim quantifies over
every span with `line ≥ 1`, but `(s.line - 1) as u32` truncates: at
`line = 2^32 + 1` the produced start line is `0`, not `line − 1`. -/
theorem c9_span_conversion_counterexample :
    (1 : Nat) ≤ 4294967297 ∧
    (span_to_range (some ⟨4294967297, 1, 0⟩)).start.line = 0 ∧
    (4294967297 : Nat) - 1 ≠ 0 := by
  refine ⟨by decide, ?_, by decide⟩
  decide

/-- C10. Span conversion is total at the public interface: a missing span
and a span with `line = 0` both yield the default all-zero range, and a
span with `column = 0` is handled by saturating subtraction, its start
character being 0 — so no span value can underflow or escape the
conversion. -/
theorem c10_span_total :
    span_to_range none = Range.default ∧
    (∀ c len : Nat, span_to_range (some ⟨0, c, len⟩) = Range.default) ∧
    (∀ s : Span, 0 < s.line → s.column = 0 →
      (span_to_range (some s)).start.character = 0 ∧
      (span_to_range (some s)).start.line = (s.line - 1) % U32MOD) := by
  refine ⟨rfl, fun c len => rfl, ?_⟩
  intro s h1 h2
  have hred : span_to_range (some s) =
      if s.line > 0 then
        ⟨⟨(s.line - 1) % U32MOD, (s.column - 1) % U32MOD⟩,
         ⟨(s.line - 1) % U32MOD,
          ((s.column - 1) % U32MOD + s.length % U32MOD) % U32MOD⟩⟩
      else Range.default := rfl
  rw [hred, if_pos h1, h2]
  exact ⟨rfl, rfl⟩

theorem c10_span_total_witness :
    ((0 : Nat) < 1) ∧
    (span_to_range (some ⟨1, 0, 7⟩)).start.character = 0 ∧
    (span_to_range (some ⟨1, 0, 7⟩)).start.line = (1 - 1) % U32MOD :=
  ⟨Nat.one_pos,
   (c10_span_total.2.2 ⟨1, 0, 7⟩ Nat.one_pos rfl).1,
   (c10_span_total.2.2 ⟨1, 0, 7⟩ Nat.one_pos rfl).2⟩
